import Mathlib

/-!
Verification development for the nox particle scheduler (aquamarine plumber)
and the kademlia discovery behaviour.

The Plumber definitions are a shallow embedding of
`src/aquamarine/src/plumber.rs`; the Kademlia definitions are a shallow
embedding of `src/crates/kademlia/src/behaviour.rs`.  Components of this
repository that are referenced by the plumber but whose source files are not
available (`deadline.rs`, `actor.rs`, `vm_pool.rs`, the particle data store
and the external registries) are modelled from the specification and marked
as such on their doc comments.
-/

set_option linter.unusedVariables false

namespace Nox

/-- Peer identifiers, abstracted as natural numbers. -/
abbrev PeerId := Nat

/-- Multiaddresses, abstracted as natural numbers. -/
abbrev Multiaddr := Nat

/-- PeerScope (particle-services): selects the execution identity.
The plumber matches on `PeerScope::Host` and `PeerScope::WorkerId(worker_id)`. -/
inductive PeerScope where
  | Host : PeerScope
  | WorkerId : PeerId → PeerScope
deriving DecidableEq, Repr

/-- Particle envelope (particle-protocol, consumed by `plumber.rs`):
`id`, `init_peer_id`, `signature`, `timestamp` (unix ms), `ttl` (ms).
The outcome of `particle.verify()` is abstracted into the boolean field
`verified` (the verification itself is delegated cryptography). -/
structure Particle where
  id : String
  init_peer_id : PeerId
  signature : List Nat
  timestamp : Nat
  ttl : Nat
  verified : Bool
deriving DecidableEq, Repr

/-- Modelled from the spec: `deadline.rs` is not under `src/`.  §4.1 of the
spec: a `Deadline` is built from `(timestamp, ttl)` yielding
`expires_at = timestamp + ttl` in unix ms. -/
structure Deadline where
  expires_at : Nat
deriving DecidableEq, Repr

/-- Modelled from the spec, §4.1: `Deadline::from(particle)` derives the
absolute expiry from the particle timestamp and ttl. -/
def Deadline.fromParticle (p : Particle) : Deadline :=
  { expires_at := p.timestamp + p.ttl }

/-- Modelled from the spec, §4.1: `is_expired(now_ms)` is `now_ms ≥ expires_at`. -/
def Deadline.is_expired (d : Deadline) (now_ms : Nat) : Bool :=
  decide (d.expires_at ≤ now_ms)

/-- Errors surfaced through the plumber event queue (`error.rs`); only the
payloads the claims are about are retained (the `ParticleError` payload of a
signature failure is dropped). -/
inductive AquamarineApiError where
  | ParticleExpired : String → AquamarineApiError
  | SignatureVerificationFailed : String → AquamarineApiError
deriving DecidableEq, Repr

/-- Service functions are opaque to the scheduler. -/
abbrev ServiceFunction := Unit

/-- Cleanup key collected for the data-store batch cleanup:
`(particle_id, peer_id, signature, deal_id)` (spec §4.4). -/
structure CleanupKey where
  particle_id : String
  peer_id : PeerId
  signature : List Nat
  deal_id : String
deriving DecidableEq, Repr

/-- Payload of a completed execution as the plumber consumes it in
`poll` (`actor.poll_completed`): interpretation effects (the particle and its
next peers) plus the runtime `(vm_id, Option VM)`; the VM itself is opaque. -/
structure InterpretationResult where
  particle : Particle
  next_peers : List PeerId
  vm_id : Nat
  vm : Option Unit
  success : Bool
deriving DecidableEq, Repr

/-- Execution slot of an actor: empty, in flight on a borrowed VM, or
completed and awaiting collection by `poll_completed`. -/
inductive ExecSlot where
  | idle : ExecSlot
  | running : Nat → ExecSlot
  | finished : InterpretationResult → ExecSlot
deriving DecidableEq, Repr

/-- Modelled from the spec: `actor.rs` is not under `src/`.  §4.3: an actor is
a per-(signature, scope) FIFO mailbox plus one execution slot; it tracks the
deadline of its last ingested particle, the creation particle id, the current
peer id, the signature and the optional deal id (used for the cleanup key),
and an optional ephemeral service function. -/
structure Actor where
  mailbox : List Particle
  slot : ExecSlot
  deadline : Deadline
  particle_id : String
  current_peer_id : PeerId
  signature : List Nat
  deal_id : Option String
  function : Option ServiceFunction
deriving DecidableEq, Repr

/-- Modelled from the spec, §4.3: an actor is executing while an execution
future exists (in flight or completed but not yet collected). -/
def Actor.is_executing (a : Actor) : Bool :=
  match a.slot with
  | ExecSlot.idle => false
  | _ => true

/-- Modelled from the spec, §4.3: an actor is expired when its last ingested
particle deadline has passed. -/
def Actor.is_expired (a : Actor) (now : Nat) : Bool :=
  a.deadline.is_expired now

/-- Modelled from the spec, §4.4: the cleanup key of an actor. -/
def Actor.cleanup_key (a : Actor) : CleanupKey :=
  { particle_id := a.particle_id
    peer_id := a.current_peer_id
    signature := a.signature
    deal_id := a.deal_id.getD "" }

/-- Modelled from the spec, §4.3: `Actor::ingest` pushes the particle into the
mailbox and refreshes the actor deadline. -/
def Actor.ingestParticle (a : Actor) (p : Particle) : Actor :=
  { a with mailbox := a.mailbox ++ [p], deadline := Deadline.fromParticle p }

/-- Modelled from the spec, §4.3: install an ephemeral service function. -/
def Actor.set_function (a : Actor) (f : ServiceFunction) : Actor :=
  { a with function := some f }

def Actor.mailbox_size (a : Actor) : Nat :=
  a.mailbox.length

/-- Modelled from the spec: `vm_pool.rs` is not under `src/`.  §4.2: a pool of
interpreter VMs; `free` holds the idle vm ids, `recreating` the slots whose
VM was lost and is being rebuilt asynchronously. -/
structure VmPool where
  free : List Nat
  recreating : List Nat
deriving DecidableEq, Repr

/-- Modelled from the spec, §4.2: `get_vm` returns an idle VM or nothing. -/
def VmPool.get_vm (pool : VmPool) : Option (Nat × VmPool) :=
  match pool.free with
  | [] => none
  | vm_id :: rest => some (vm_id, { pool with free := rest })

/-- Modelled from the spec, §4.2: `put_vm` returns a borrowed VM to the pool. -/
def VmPool.put_vm (pool : VmPool) (vm_id : Nat) : VmPool :=
  { pool with free := pool.free ++ [vm_id] }

/-- Modelled from the spec, §4.2: `recreate_avm` schedules re-creation of a
lost VM; the slot stays out of the free list until ready. -/
def VmPool.recreate_avm (pool : VmPool) (vm_id : Nat) : VmPool :=
  { pool with recreating := pool.recreating ++ [vm_id] }

/-- Modelled from the spec: the external collaborators the plumber consumes
(worker registry, peer scopes, key storage, root-key particle-token signing),
abstracted as total functions; fallible lookups return `Option`. -/
structure Env where
  is_worker_active : PeerId → Bool
  is_management : PeerId → Bool
  is_host : PeerId → Bool
  host_peer_id : PeerId
  scope : PeerId → Option PeerScope
  get_keypair : PeerScope → Option Unit
  get_deal_id : PeerId → Option String
  get_handle : PeerId → Option Unit
  particle_token : List Nat → Option String

/-- ActorKey from `plumber.rs`: `(signature, peer_scope)`. -/
structure ActorKey where
  signature : List Nat
  peer_scope : PeerScope
deriving DecidableEq, Repr

/-- Association-list lookup, standing in for `HashMap` lookup. -/
def alookup {α β : Type} [DecidableEq α] : List (α × β) → α → Option β
  | [], _ => none
  | e :: rest, k => if e.1 = k then some e.2 else alookup rest k

/-- Association-list insert-or-replace, standing in for `HashMap::insert` /
`entry().or_default()` followed by an in-place update. -/
def ainsert {α β : Type} [DecidableEq α] : List (α × β) → α → β → List (α × β)
  | [], k, v => [(k, v)]
  | e :: rest, k, v => if e.1 = k then (k, v) :: rest else e :: ainsert rest k v

/-- Association-list removal of the (first) entry of a key, standing in for
`HashMap::remove`. -/
def aremove {α β : Type} [DecidableEq α] : List (α × β) → α → List (α × β)
  | [], _ => []
  | e :: rest, k => if e.1 = k then rest else e :: aremove rest k

/-- Update the value stored at a key in place (no-op when absent). -/
def amodify {α β : Type} [DecidableEq α] : List (α × β) → α → (β → β) → List (α × β)
  | [], _, _ => []
  | e :: rest, k, f => if e.1 = k then (k, f e.2) :: rest else e :: amodify rest k f

def containsKey (l : List (ActorKey × Actor)) (k : ActorKey) : Bool :=
  (alookup l k).isSome

/-- Remote routing effects: the particle plus the next peers that have no
local scope (`particle_effects.rs`, consumed by `plumber.rs`). -/
structure RemoteRoutingEffects where
  particle : Particle
  next_peers : List PeerId
deriving DecidableEq, Repr

/-- Local routing effects: the particle plus the local scopes of the next
peers that the scope registry resolved. -/
structure LocalRoutingEffects where
  particle : Particle
  next_peers : List PeerScope
deriving DecidableEq, Repr

abbrev Event := Except AquamarineApiError RemoteRoutingEffects

deriving instance DecidableEq for Except

/-- The plumber state (`plumber.rs`): event queue, actor table, vm pool and
the at-most-one in-flight cleanup batch. -/
structure Plumber where
  events : List Event
  actors : List (ActorKey × Actor)
  vm_pool : VmPool
  cleanup_future : Option (List CleanupKey)
deriving DecidableEq, Repr

/-- The vacant-entry branch of `Plumber::get_or_create_actor`: actor creation
requires the particle token (root-key signing of the signature), the
per-scope key pair, and — for a worker scope — the deal id and the worker
runtime handle; any failure aborts creation. -/
def createActor (env : Env) (peer_scope : PeerScope) (particle : Particle) : Option Actor :=
  match env.particle_token particle.signature with
  | none => none
  | some _token =>
    match env.get_keypair peer_scope with
    | none => none
    | some _kp =>
      match peer_scope with
      | PeerScope.WorkerId worker_id =>
        match env.get_deal_id worker_id with
        | none => none
        | some deal =>
          match env.get_handle worker_id with
          | none => none
          | some _h =>
            some { mailbox := []
                   slot := ExecSlot.idle
                   deadline := Deadline.fromParticle particle
                   particle_id := particle.id
                   current_peer_id := worker_id
                   signature := particle.signature
                   deal_id := some deal
                   function := none }
      | PeerScope.Host =>
        some { mailbox := []
               slot := ExecSlot.idle
               deadline := Deadline.fromParticle particle
               particle_id := particle.id
               current_peer_id := env.host_peer_id
               signature := particle.signature
               deal_id := none
               function := none }

/-- `Plumber::get_or_create_actor`: occupied entries are reused as they are;
a vacant entry inserts a newly created actor, and creation failure leaves the
table untouched. -/
def Plumber.get_or_create_actor (env : Env) (s : Plumber) (peer_scope : PeerScope)
    (key : ActorKey) (particle : Particle) : Option (List (ActorKey × Actor)) :=
  if containsKey s.actors key then
    some s.actors
  else
    match createActor env peer_scope particle with
    | none => none
    | some a => some (s.actors ++ [(key, a)])

/-- The worker-activation admission check of `Plumber::ingest`: a particle
destined to a deactivated worker is admitted only when its initiator is a
management peer or the host itself. -/
def workerAdmissionOk (env : Env) (p : Particle) (peer_scope : PeerScope) : Bool :=
  match peer_scope with
  | PeerScope.WorkerId worker_id =>
    env.is_worker_active worker_id || env.is_management p.init_peer_id
      || env.is_host p.init_peer_id
  | PeerScope.Host => true

/-- `Plumber::ingest` (`plumber.rs` lines 108-171): deadline check, signature
verification, worker-activation check, then get-or-create of the actor and
delivery into its mailbox (with the optional per-call function override). -/
def Plumber.ingest (env : Env) (now : Nat) (s : Plumber) (particle : Particle)
    (function : Option ServiceFunction) (peer_scope : PeerScope) : Plumber :=
  let deadline := Deadline.fromParticle particle
  if deadline.is_expired now then
    { s with events := s.events
        ++ [Except.error (AquamarineApiError.ParticleExpired particle.id)] }
  else if particle.verified = false then
    { s with events := s.events
        ++ [Except.error (AquamarineApiError.SignatureVerificationFailed particle.id)] }
  else if workerAdmissionOk env particle peer_scope = false then
    s
  else
    let key : ActorKey := { signature := particle.signature, peer_scope := peer_scope }
    match s.get_or_create_actor env peer_scope key particle with
    | none => s
    | some actors1 =>
      { s with actors := amodify actors1 key (fun a =>
          let a1 := a.ingestParticle particle
          match function with
          | some f => a1.set_function f
          | none => a1) }

/-- The partition loop of `Plumber::poll` (lines 287-299): each next peer is
pushed to the remote side when the scope registry has no scope for it, and to
the local side (as its scope) otherwise. -/
def partitionPeers (env : Env) (peers : List PeerId) : List PeerId × List PeerScope :=
  peers.foldl
    (fun acc q =>
      match env.scope q with
      | none => (acc.1 ++ [q], acc.2)
      | some sc => (acc.1, acc.2 ++ [sc]))
    ([], [])

/-- Accumulated output of the drain-completed phase of `Plumber::poll`. -/
structure DrainOut where
  actors : List (ActorKey × Actor)
  pool : VmPool
  remotes : List RemoteRoutingEffects
  locals : List LocalRoutingEffects
  mailbox_size : Nat
deriving DecidableEq, Repr

/-- The drain-completed phase of `Plumber::poll` (lines 283-326): for every
actor with a completed execution, partition its next peers, buffer a
remote/local routing effect for each non-empty side, and return the VM to the
pool (or request recreation when the VM was lost). -/
def drainGo (env : Env) : List (ActorKey × Actor) → VmPool → DrainOut
  | [], pool => { actors := [], pool := pool, remotes := [], locals := [], mailbox_size := 0 }
  | (k, a) :: rest, pool =>
    match a.slot with
    | ExecSlot.finished r =>
      let parts := partitionPeers env r.next_peers
      let remotes0 : List RemoteRoutingEffects :=
        if parts.1.isEmpty then [] else [{ particle := r.particle, next_peers := parts.1 }]
      let locals0 : List LocalRoutingEffects :=
        if parts.2.isEmpty then [] else [{ particle := r.particle, next_peers := parts.2 }]
      let pool1 :=
        match r.vm with
        | some _ => pool.put_vm r.vm_id
        | none => pool.recreate_avm r.vm_id
      let a1 : Actor := { a with slot := ExecSlot.idle }
      let d := drainGo env rest pool1
      { actors := (k, a1) :: d.actors
        pool := d.pool
        remotes := remotes0 ++ d.remotes
        locals := locals0 ++ d.locals
        mailbox_size := a1.mailbox.length + d.mailbox_size }
    | _ =>
      let d := drainGo env rest pool
      { actors := (k, a) :: d.actors
        pool := d.pool
        remotes := d.remotes
        locals := d.locals
        mailbox_size := a.mailbox.length + d.mailbox_size }

def MAX_CLEANUP_KEYS_SIZE : Nat := 1024

/-- Output of the cleanup retain walk. -/
structure RetainOut where
  kept : List (ActorKey × Actor)
  keys : List CleanupKey
deriving DecidableEq, Repr

/-- The `actors.retain` walk of the cleanup phase of `Plumber::poll`
(lines 339-352): once `MAX_CLEANUP_KEYS_SIZE` keys are collected every
remaining actor is kept; otherwise an actor is kept unless it is expired and
not executing, in which case its cleanup key is collected and it is evicted. -/
def retainActors (now : Nat) : List (ActorKey × Actor) → List CleanupKey → RetainOut
  | [], acc => { kept := [], keys := acc }
  | (k, a) :: rest, acc =>
    if MAX_CLEANUP_KEYS_SIZE ≤ acc.length then
      let r := retainActors now rest acc
      { kept := (k, a) :: r.kept, keys := r.keys }
    else if !(a.is_expired now) || a.is_executing then
      let r := retainActors now rest acc
      { kept := (k, a) :: r.kept, keys := r.keys }
    else
      retainActors now rest (acc ++ [a.cleanup_key])

/-- The cleanup phase of `Plumber::poll` (lines 328-359): a ready cleanup
future is dropped; then, only when no cleanup is in flight, the actor table
is walked and a single batch of collected keys (when non-empty) becomes the
new in-flight cleanup future. -/
def Plumber.cleanupStep (now : Nat) (cleanupReady : Bool) (s : Plumber) : Plumber :=
  let s1 := if s.cleanup_future.isSome && cleanupReady then
      { s with cleanup_future := none }
    else s
  if s1.cleanup_future.isNone then
    let r := retainActors now s1.actors []
    { s1 with actors := r.kept
              cleanup_future := if r.keys.isEmpty then none else some r.keys }
  else s1

/-- Result of `Actor::poll_next`: either the VM was not consumed and is handed
back, or an execution was spawned. -/
inductive ActorPollRes where
  | Vm : Nat → ActorPollRes
  | Executing : ActorPollRes
deriving DecidableEq, Repr

/-- Modelled from the spec, §4.3: `poll_next` takes the mailbox head and
spawns an execution when the actor is idle and its mailbox is non-empty;
otherwise the VM is returned unused. -/
def Actor.poll_next (a : Actor) (vm_id : Nat) : ActorPollRes × Actor :=
  match a.slot, a.mailbox with
  | ExecSlot.idle, p :: rest =>
    (ActorPollRes.Executing, { a with mailbox := rest, slot := ExecSlot.running vm_id })
  | _, _ => (ActorPollRes.Vm vm_id, a)

/-- Output of the dispatch phase. -/
structure DispatchOut where
  actors : List (ActorKey × Actor)
  pool : VmPool
deriving DecidableEq, Repr

/-- The dispatch phase of `Plumber::poll` (lines 362-379): walk the actors;
while a VM is available, offer it via `poll_next` and return it immediately
when unconsumed; stop as soon as the pool is empty. -/
def dispatchGo : List (ActorKey × Actor) → VmPool → DispatchOut
  | [], pool => { actors := [], pool := pool }
  | (k, a) :: rest, pool =>
    match pool.get_vm with
    | some (vm_id, pool1) =>
      let r := a.poll_next vm_id
      let pool2 :=
        match r.1 with
        | ActorPollRes.Vm id => pool1.put_vm id
        | ActorPollRes.Executing => pool1
      let d := dispatchGo rest pool2
      { actors := (k, r.2) :: d.actors, pool := d.pool }
    | none => { actors := (k, a) :: rest, pool := pool }

/-- The local-effects fanout of `Plumber::poll` (lines 400-406): every local
routing effect becomes one recursive `ingest` per local scope. -/
def Plumber.ingestLocals (env : Env) (now : Nat) (s : Plumber)
    (locals : List LocalRoutingEffects) : Plumber :=
  locals.foldl
    (fun st eff =>
      eff.next_peers.foldl
        (fun st2 sc => st2.ingest env now eff.particle none sc) st)
    s

/-- Poll outcome. -/
inductive Poll (α : Type) where
  | Ready : α → Poll α
  | Pending : Poll α
deriving DecidableEq, Repr

/-- `Plumber::poll` (lines 266-417): pop a buffered event if any; otherwise
drain completed executions, run the cleanup phase (`cleanupReady` abstracts
whether the in-flight cleanup future resolved at this poll), dispatch free
VMs, re-ingest local effects recursively, extend the event queue with the
remote effects and return its head or `Pending`. -/
def Plumber.poll (env : Env) (now : Nat) (cleanupReady : Bool) (s : Plumber) :
    Poll Event × Plumber :=
  match s.events with
  | e :: rest => (Poll.Ready e, { s with events := rest })
  | [] =>
    let d := drainGo env s.actors s.vm_pool
    let s1 : Plumber := { s with actors := d.actors, vm_pool := d.pool }
    let s2 := s1.cleanupStep now cleanupReady
    let dp := dispatchGo s2.actors s2.vm_pool
    let s3 : Plumber := { s2 with actors := dp.actors, vm_pool := dp.pool }
    let s4 := s3.ingestLocals env now d.locals
    let s5 : Plumber := { s4 with events := s4.events ++ d.remotes.map Except.ok }
    match s5.events with
    | e :: rest => (Poll.Ready e, { s5 with events := rest })
    | [] => (Poll.Pending, s5)

/-- Repeated ingestion of a sequence of (particle, scope) pairs. -/
def Plumber.ingestAll (env : Env) (now : Nat) : Plumber → List (Particle × PeerScope) → Plumber
  | s, [] => s
  | s, q :: rest => Plumber.ingestAll env now (s.ingest env now q.1 none q.2) rest

/-- An empty plumber. -/
def emptyPlumber : Plumber :=
  { events := [], actors := [], vm_pool := { free := [], recreating := [] }, cleanup_future := none }

end Nox

namespace Nox

/-! Kademlia discovery behaviour, `src/crates/kademlia/src/behaviour.rs`. -/

/-- Reply channels (`oneshot::Sender`), abstracted as identifiers. -/
abbrev Chan := Nat

/-- Discovery errors (`kademlia/src/error.rs`, as used by the behaviour). -/
inductive KademliaError where
  | NoKnownPeers : KademliaError
  | PeerBanned : KademliaError
  | PeerTimedOut : KademliaError
  | NoPeersFound : KademliaError
  | QueryTimedOut : KademliaError
deriving DecidableEq, Repr

/-- `PendingPeer`: a waiter reply channel plus its creation instant
(instants are abstracted as natural numbers). -/
structure KadPendingPeer where
  out : Chan
  created : Nat
deriving DecidableEq, Repr

/-- `FailedPeer`: optional ban instant plus the discovery failure count. -/
structure FailedPeer where
  ban : Option Nat
  count : Nat
deriving DecidableEq, Repr

instance : Inhabited FailedPeer := ⟨{ ban := none, count := 0 }⟩

/-- `FailedPeer::increment`. -/
def FailedPeer.increment (f : FailedPeer) : FailedPeer :=
  { f with count := f.count + 1 }

/-- `PendingQuery`, keyed by DHT query id. -/
inductive PendingQuery where
  | Peer : PeerId → PendingQuery
  | Neighborhood : Chan → PendingQuery
  | Unit : Chan → PendingQuery
deriving DecidableEq, Repr

/-- The discovery-relevant part of the kademlia server config. -/
structure KademliaConfig where
  query_timeout : Nat
  ban_cooldown : Nat
  peer_fail_threshold : Nat
deriving DecidableEq, Repr

/-- The behaviour state: pending queries, pending peer waiters, failed peers
and the config. `next_query_id` models the fresh query ids the underlying
DHT hands out for `get_closest_peers`. -/
structure Kademlia where
  queries : List (Nat × PendingQuery)
  pending_peers : List (PeerId × List KadPendingPeer)
  failed_peers : List (PeerId × FailedPeer)
  config : KademliaConfig
  next_query_id : Nat
deriving DecidableEq, Repr

/-- The environment of the behaviour: `addresses_of_peer` consults the
underlying DHT routing table, which is external state. -/
structure KadEnv where
  addresses_of_peer : PeerId → List Multiaddr

/-- A reply sent to a discovery waiter channel. -/
abbrev KadReply := Chan × Except KademliaError (List Multiaddr)

/-- `Kademlia::is_banned`: a peer is banned while its failure record carries
a ban instant. -/
def Kademlia.is_banned (k : Kademlia) (peer : PeerId) : Bool :=
  match alookup k.failed_peers peer with
  | some f => f.ban.isSome
  | none => false

/-- Output of `discover_peer`: the new state, the replies fired synchronously
and the targets of the `get_closest_peers` DHT queries issued. -/
structure DiscoverOut where
  state : Kademlia
  replies : List KadReply
  issued : List PeerId
deriving DecidableEq, Repr

/-- `Kademlia::discover_peer` (lines 222-246): reply immediately from the
local table when non-empty; reply `PeerBanned` for a banned peer; otherwise
append a waiter to the pending list and issue a single `get_closest_peers`
query only when that list was previously empty. -/
def Kademlia.discover_peer (env : KadEnv) (now : Nat) (k : Kademlia) (peer : PeerId)
    (out : Chan) : DiscoverOut :=
  let found := env.addresses_of_peer peer
  if found.isEmpty = false then
    { state := k, replies := [(out, Except.ok found)], issued := [] }
  else if k.is_banned peer then
    { state := k, replies := [(out, Except.error KademliaError.PeerBanned)], issued := [] }
  else
    let outlets := (alookup k.pending_peers peer).getD []
    let discovering := outlets.isEmpty = false
    let pending1 := ainsert k.pending_peers peer (outlets ++ [{ out := out, created := now }])
    if discovering then
      { state := { k with pending_peers := pending1 }, replies := [], issued := [] }
    else
      { state := { k with
          pending_peers := pending1
          queries := k.queries ++ [(k.next_query_id, PendingQuery.Peer peer)]
          next_query_id := k.next_query_id + 1 }
        replies := []
        issued := [peer] }

/-- Output of `peer_discovered`. -/
structure DiscoveredOut where
  state : Kademlia
  replies : List KadReply
deriving DecidableEq, Repr

/-- `Kademlia::peer_discovered` (lines 275-291): resolve every pending waiter
of the peer with the discovered addresses, drop the pending entry, and remove
any failure record (implicit unban on success). -/
def Kademlia.peer_discovered (k : Kademlia) (peer : PeerId) (addresses : List Multiaddr) :
    DiscoveredOut :=
  let pendings := (alookup k.pending_peers peer).getD []
  { state := { k with
      pending_peers := aremove k.pending_peers peer
      failed_peers := aremove k.failed_peers peer }
    replies := pendings.map (fun q => (q.out, Except.ok addresses)) }

/-- `has_timed_out` (lines 450-463): an entity has timed out when its timeout
does not exceed the elapsed time; otherwise the wake deadline shrinks to the
remaining time when that is smaller. -/
def has_timed_out (now timestamp timeout wake : Nat) : Bool × Nat :=
  let elapsed := now - timestamp
  if timeout ≤ elapsed then (true, wake)
  else (false, min (timeout - elapsed) wake)

/-- Output of the `extract_if` walk over one pending-peer waiter list. -/
structure ExtractOut where
  expired : List KadPendingPeer
  kept : List KadPendingPeer
  wake : Nat
deriving DecidableEq, Repr

/-- The `extract_if` walk of the sweep (line 364): waiters whose age reached
twice the query timeout are extracted, threading the wake deadline. -/
def extractTimedOut (cfg : KademliaConfig) (now : Nat) :
    List KadPendingPeer → Nat → ExtractOut
  | [], wake => { expired := [], kept := [], wake := wake }
  | q :: rest, wake =>
    let h := has_timed_out now q.created (cfg.query_timeout * 2) wake
    let t := extractTimedOut cfg now rest h.2
    if h.1 then
      { expired := q :: t.expired, kept := t.kept, wake := t.wake }
    else
      { expired := t.expired, kept := q :: t.kept, wake := t.wake }

/-- `failed_peers.entry(id).or_default().increment()`. -/
def incrementFailed (l : List (PeerId × FailedPeer)) (id : PeerId) :
    List (PeerId × FailedPeer) :=
  let cur := (alookup l id).getD { ban := none, count := 0 }
  ainsert l id cur.increment

/-- Output of the pending-peers sweep. -/
structure SweepPendOut where
  pending : List (PeerId × List KadPendingPeer)
  failed : List (PeerId × FailedPeer)
  replies : List KadReply
  wake : Nat
deriving DecidableEq, Repr

/-- The pending-peers retain of `Kademlia::poll` (lines 362-381): for each
entry drain the timed-out waiters, reply `PeerTimedOut` to each of them,
increment the peer failure count once when at least one waiter expired, and
drop entries left empty. -/
def sweepPending (cfg : KademliaConfig) (now : Nat) :
    List (PeerId × List KadPendingPeer) → List (PeerId × FailedPeer) → Nat → SweepPendOut
  | [], failed, wake => { pending := [], failed := failed, replies := [], wake := wake }
  | (id, peers) :: rest, failed, wake =>
    let ex := extractTimedOut cfg now peers wake
    let replies0 := ex.expired.map
      (fun q => ((q.out, Except.error KademliaError.PeerTimedOut) : KadReply))
    let failed1 := if ex.expired.isEmpty then failed else incrementFailed failed id
    let t := sweepPending cfg now rest failed1 ex.wake
    { pending := if ex.kept.isEmpty then t.pending else (id, ex.kept) :: t.pending
      failed := t.failed
      replies := replies0 ++ t.replies
      wake := t.wake }

/-- The failed-peers retain of `Kademlia::poll` (lines 383-398): a banned
peer whose cooldown elapsed is removed (unban); otherwise a peer whose count
reached the fail threshold gets its ban (re)set to `now`. -/
def sweepFailed (cfg : KademliaConfig) (now : Nat) :
    List (PeerId × FailedPeer) → Nat → List (PeerId × FailedPeer) × Nat
  | [], wake => ([], wake)
  | (id, f) :: rest, wake =>
    match f.ban with
    | some ban =>
      let h := has_timed_out now ban cfg.ban_cooldown wake
      if h.1 then
        sweepFailed cfg now rest h.2
      else
        let f1 := if cfg.peer_fail_threshold ≤ f.count then { f with ban := some now } else f
        let t := sweepFailed cfg now rest h.2
        ((id, f1) :: t.1, t.2)
    | none =>
      let f1 := if cfg.peer_fail_threshold ≤ f.count then { f with ban := some now } else f
      let t := sweepFailed cfg now rest wake
      ((id, f1) :: t.1, t.2)

/-- Output of the periodic sweep. -/
structure SweepOut where
  state : Kademlia
  replies : List KadReply
deriving DecidableEq, Repr

/-- The periodic sweep inside `Kademlia::poll` (lines 350-404): skipped when
there are no pending and no failed peers; otherwise the pending-peers retain
runs, then the failed-peers retain, starting from a wake deadline of
`min(query_timeout, ban_cooldown)`. -/
def Kademlia.sweep (now : Nat) (k : Kademlia) : SweepOut :=
  if k.pending_peers.isEmpty && k.failed_peers.isEmpty then
    { state := k, replies := [] }
  else
    let next_wake := min k.config.query_timeout k.config.ban_cooldown
    let sp := sweepPending k.config now k.pending_peers k.failed_peers next_wake
    let sf := sweepFailed k.config now sp.failed sp.wake
    { state := { k with pending_peers := sp.pending, failed_peers := sf.1 }
      replies := sp.replies }

/-! Concrete fixtures used by the witness theorems. -/

/-- A concrete environment: worker 7 is active, peer 50 is a management peer,
peer 60 is the host key, peer 1 resolves to the local host scope, and every
external lookup succeeds. -/
def envA : Env :=
  { is_worker_active := fun w => decide (w = 7)
    is_management := fun q => decide (q = 50)
    is_host := fun q => decide (q = 60)
    host_peer_id := 0
    scope := fun q => if q = 1 then some PeerScope.Host else none
    get_keypair := fun _ => some ()
    get_deal_id := fun _ => some "deal"
    get_handle := fun _ => some ()
    particle_token := fun _ => some "tok" }

/-- Like `envA`, but the key storage has no key pair for any scope. -/
def envB : Env :=
  { envA with get_keypair := fun _ => none }

/-- A valid particle: expires at 150, signature verifies. -/
def pGood : Particle :=
  { id := "p1", init_peer_id := 5, signature := [1, 2], timestamp := 100, ttl := 50
    verified := true }

/-- A particle whose signature verification fails. -/
def pBadSig : Particle :=
  { pGood with id := "p2", verified := false }

/-- A valid particle whose initiator is the management peer of `envA`. -/
def pMgr : Particle :=
  { pGood with id := "p3", init_peer_id := 50 }

/-- A completed interpretation over `pGood` whose next peers are 1 (local
host scope under `envA`) and 2 (remote), and whose VM was lost. -/
def resA : InterpretationResult :=
  { particle := pGood, next_peers := [1, 2], vm_id := 0, vm := none, success := true }

/-- An actor holding the completed `resA` execution. -/
def actorA : Actor :=
  { mailbox := [], slot := ExecSlot.finished resA, deadline := { expires_at := 150 }
    particle_id := "p1", current_peer_id := 0, signature := [1, 2], deal_id := none
    function := none }

/-- An expired, idle actor (used for cleanup witnesses). -/
def actorExpired : Actor :=
  { mailbox := [], slot := ExecSlot.idle, deadline := { expires_at := 90 }
    particle_id := "p0", current_peer_id := 0, signature := [9], deal_id := none
    function := none }

/-- Actor key of `actorExpired`. -/
def keyE : ActorKey := { signature := [9], peer_scope := PeerScope.Host }

/-- Actor key of `actorA`. -/
def keyA : ActorKey := { signature := [1, 2], peer_scope := PeerScope.Host }

/-- A plumber with one expired idle actor and one actor holding a completed
execution, and no cleanup batch in flight. -/
def plumberC4 : Plumber :=
  { events := [], actors := [(keyE, actorExpired), (keyA, actorA)]
    vm_pool := { free := [], recreating := [] }, cleanup_future := none }

/-- Like `plumberC4`, but a cleanup batch is in flight. -/
def plumberC4Inflight : Plumber :=
  { plumberC4 with cleanup_future := some [actorExpired.cleanup_key] }

/-- A concrete kademlia config. -/
def kcfgA : KademliaConfig :=
  { query_timeout := 10, ban_cooldown := 100, peer_fail_threshold := 2 }

/-- An empty kademlia behaviour state over `kcfgA`. -/
def kadA : Kademlia :=
  { queries := [], pending_peers := [], failed_peers := [], config := kcfgA
    next_query_id := 0 }

/-- A DHT routing table with no addresses at all. -/
def kenvEmpty : KadEnv :=
  { addresses_of_peer := fun _ => [] }

/-- A DHT routing table that only knows addresses of peer 3. -/
def kenvSome : KadEnv :=
  { addresses_of_peer := fun q => if q = 3 then [30] else [] }

/-- A behaviour state where peer 5 is banned. -/
def kadBan : Kademlia :=
  { kadA with failed_peers := [(5, { ban := some 40, count := 2 })] }

/-- A behaviour state where peer 5 has reached the failure threshold but is
not yet banned. -/
def kadFail : Kademlia :=
  { kadA with failed_peers := [(5, { ban := none, count := 2 })] }

/-- Two waiters for peer 5, one of them old enough to time out at instant 25. -/
def pendList : List KadPendingPeer :=
  [{ out := 70, created := 3 }, { out := 71, created := 20 }]

/-- A behaviour state with two waiters pending on peer 5, one of them old
enough to time out at instant 25. -/
def kadPend : Kademlia :=
  { kadA with pending_peers := [(5, pendList)] }

end Nox

namespace Nox

/-! Association-list lemmas. -/

lemma alookup_append {α β : Type} [DecidableEq α] (l1 l2 : List (α × β)) (k : α) :
    alookup (l1 ++ l2) k
      = (match alookup l1 k with
         | some v => some v
         | none => alookup l2 k) := by
  induction l1 with
  | nil => simp [alookup]
  | cons e rest ih =>
    by_cases h : e.1 = k <;> simp [alookup, h, ih]

lemma alookup_ainsert_self {α β : Type} [DecidableEq α] (l : List (α × β)) (k : α) (v : β) :
    alookup (ainsert l k v) k = some v := by
  induction l with
  | nil => simp [ainsert, alookup]
  | cons e rest ih =>
    by_cases h : e.1 = k <;> simp [ainsert, alookup, h, ih]

lemma amodify_map_fst {α β : Type} [DecidableEq α] (l : List (α × β)) (k : α) (f : β → β) :
    (amodify l k f).map Prod.fst = l.map Prod.fst := by
  induction l with
  | nil => simp [amodify]
  | cons e rest ih =>
    by_cases h : e.1 = k <;> simp [amodify, h, ih]

lemma amodify_length {α β : Type} [DecidableEq α] (l : List (α × β)) (k : α) (f : β → β) :
    (amodify l k f).length = l.length := by
  induction l with
  | nil => simp [amodify]
  | cons e rest ih =>
    by_cases h : e.1 = k <;> simp [amodify, h, ih]

lemma alookup_amodify_self {α β : Type} [DecidableEq α] (l : List (α × β)) (k : α)
    (f : β → β) (v : β) (h : alookup l k = some v) :
    alookup (amodify l k f) k = some (f v) := by
  induction l with
  | nil => simp [alookup] at h
  | cons e rest ih =>
    by_cases he : e.1 = k
    · simp [alookup, he] at h
      simp [amodify, alookup, he, h]
    · simp [alookup, he] at h
      simp [amodify, alookup, he, ih h]

lemma alookup_isSome_mem {α β : Type} [DecidableEq α] (l : List (α × β)) (k : α) :
    (alookup l k).isSome = true ↔ k ∈ l.map Prod.fst := by
  induction l with
  | nil => simp [alookup]
  | cons e rest ih =>
    simp only [alookup, List.map_cons, List.mem_cons]
    by_cases h : e.1 = k
    · simp [h]
    · simp only [h, if_false]
      rw [ih]
      constructor
      · exact fun hm => Or.inr hm
      · rintro (he | hm)
        · exact absurd he.symm h
        · exact hm

lemma containsKey_amodify (l : List (ActorKey × Actor)) (k k2 : ActorKey) (f : Actor → Actor) :
    containsKey (amodify l k f) k2 = containsKey l k2 := by
  simp only [containsKey]
  by_cases h : (alookup (amodify l k f) k2).isSome = true
  · have h2 := (alookup_isSome_mem (amodify l k f) k2).1 h
    rw [amodify_map_fst] at h2
    rw [h, Eq.comm]
    exact (alookup_isSome_mem l k2).2 h2
  · have hb := Bool.of_not_eq_true h
    rw [hb, Eq.comm]
    simp only [Bool.eq_false_iff, Ne, alookup_isSome_mem]
    intro hmem
    rw [← amodify_map_fst l k f] at hmem
    rw [(alookup_isSome_mem (amodify l k f) k2).2 hmem] at hb
    exact Bool.noConfusion hb

lemma containsKey_append_last (l : List (ActorKey × Actor)) (k : ActorKey) (a : Actor) :
    containsKey (l ++ [(k, a)]) k = true := by
  simp only [containsKey, alookup_isSome_mem, List.map_append]
  simp

lemma containsKey_append_left (l l2 : List (ActorKey × Actor)) (k : ActorKey)
    (h : containsKey l k = true) :
    containsKey (l ++ l2) k = true := by
  simp only [containsKey, alookup_isSome_mem, List.map_append, List.mem_append] at *
  exact Or.inl h

lemma aremove_nodup_alookup {α β : Type} [DecidableEq α] (l : List (α × β)) (k : α)
    (h : (l.map Prod.fst).Nodup) :
    alookup (aremove l k) k = none := by
  induction l with
  | nil => simp [aremove, alookup]
  | cons e rest ih =>
    simp only [List.map_cons, List.nodup_cons] at h
    by_cases he : e.1 = k
    · subst he
      cases hr : alookup rest e.1 with
      | none => simp [aremove, hr]
      | some v =>
        exfalso
        have := (alookup_isSome_mem rest e.1).1 (by simp [hr])
        exact h.1 this
    · simp [aremove, he, alookup, ih h.2]

/-! Shape of the actor table after `Plumber::ingest`. -/

lemma ingest_actors_shape (env : Env) (now : Nat) (s : Plumber) (p : Particle)
    (f : Option ServiceFunction) (sc : PeerScope) :
    (s.ingest env now p f sc).actors = s.actors
    ∨ (∃ g, (s.ingest env now p f sc).actors
        = amodify s.actors { signature := p.signature, peer_scope := sc } g)
    ∨ (∃ g a, containsKey s.actors { signature := p.signature, peer_scope := sc } = false
        ∧ (s.ingest env now p f sc).actors
          = amodify (s.actors ++ [({ signature := p.signature, peer_scope := sc }, a)])
              { signature := p.signature, peer_scope := sc } g) := by
  unfold Plumber.ingest
  by_cases h1 : (Deadline.fromParticle p).is_expired now = true
  · left; simp [h1]
  · rw [Bool.not_eq_true] at h1
    by_cases h2 : p.verified = false
    · left; simp [h1, h2]
    · by_cases h3 : workerAdmissionOk env p sc = false
      · left; simp [h1, h2, h3]
      · simp only [h1, h2, h3, Bool.false_eq_true, if_false]
        unfold Plumber.get_or_create_actor
        by_cases h4 : containsKey s.actors { signature := p.signature, peer_scope := sc } = true
        · right; left
          refine ⟨(fun a =>
            match f with
            | some fn => (a.ingestParticle p).set_function fn
            | none => a.ingestParticle p), ?_⟩
          simp [h4]
        · rw [Bool.not_eq_true] at h4
          cases h5 : createActor env sc p with
          | none => left; simp [h4, h5]
          | some a =>
            right; right
            refine ⟨(fun a2 =>
              match f with
              | some fn => (a2.ingestParticle p).set_function fn
              | none => a2.ingestParticle p), a, h4, ?_⟩
            simp [h4, h5]

lemma ingest_events_of_admissible (env : Env) (now : Nat) (s : Plumber) (p : Particle)
    (f : Option ServiceFunction) (sc : PeerScope)
    (hexp : (Deadline.fromParticle p).is_expired now = false)
    (hv : p.verified = true) :
    (s.ingest env now p f sc).events = s.events := by
  unfold Plumber.ingest
  by_cases h3 : workerAdmissionOk env p sc = false
  · simp [hexp, hv, h3]
  · simp only [hexp, hv, h3, Bool.false_eq_true, if_false, Bool.true_eq_false]
    cases h4 : Plumber.get_or_create_actor env s sc { signature := p.signature, peer_scope := sc } p
      <;> simp [h4]

lemma ingest_containsKey_mono (env : Env) (now : Nat) (s : Plumber) (p : Particle)
    (f : Option ServiceFunction) (sc : PeerScope) (k2 : ActorKey)
    (h : containsKey s.actors k2 = true) :
    containsKey (s.ingest env now p f sc).actors k2 = true := by
  rcases ingest_actors_shape env now s p f sc with hs | ⟨g, hs⟩ | ⟨g, a, hmiss, hs⟩
  · rw [hs]; exact h
  · rw [hs, containsKey_amodify]; exact h
  · rw [hs, containsKey_amodify]
    exact containsKey_append_left _ _ _ h

lemma ingest_containsKey_self (env : Env) (now : Nat) (s : Plumber) (p : Particle)
    (f : Option ServiceFunction) (sc : PeerScope)
    (hexp : (Deadline.fromParticle p).is_expired now = false)
    (hv : p.verified = true)
    (hadm : workerAdmissionOk env p sc = true)
    (hcr : containsKey s.actors { signature := p.signature, peer_scope := sc } = true
      ∨ (createActor env sc p).isSome = true) :
    containsKey (s.ingest env now p f sc).actors
      { signature := p.signature, peer_scope := sc } = true := by
  unfold Plumber.ingest
  simp only [hexp, hv, hadm, Bool.false_eq_true, if_false, Bool.true_eq_false]
  unfold Plumber.get_or_create_actor
  by_cases h4 : containsKey s.actors { signature := p.signature, peer_scope := sc } = true
  · simp only [h4, if_true]
    rw [containsKey_amodify]
    exact h4
  · rw [Bool.not_eq_true] at h4
    rcases hcr with hcr | hcr
    · rw [h4] at hcr; exact Bool.noConfusion hcr
    · cases h5 : createActor env sc p with
      | none => rw [h5] at hcr; simp at hcr
      | some a =>
        simp only [h4, Bool.false_eq_true, if_false, h5]
        rw [containsKey_amodify]
        exact containsKey_append_last _ _ _

/-! Claim theorems: admission pipeline. -/

/-- Claim C1: ingesting a particle whose deadline is already expired enqueues
exactly one `ParticleExpired` event carrying the particle id, creates no
actor, and a subsequent poll (when the queue held nothing else) returns
`Ready(Err(ParticleExpired))`. -/
theorem claim1_expired_particle (env : Env) (now : Nat) (cr : Bool) (s : Plumber)
    (p : Particle) (f : Option ServiceFunction) (sc : PeerScope)
    (hexp : (Deadline.fromParticle p).is_expired now = true) :
    (s.ingest env now p f sc).events
      = s.events ++ [Except.error (AquamarineApiError.ParticleExpired p.id)]
    ∧ (s.ingest env now p f sc).actors = s.actors
    ∧ (s.events = [] →
        (Plumber.poll env now cr (s.ingest env now p f sc)).1
          = Poll.Ready (Except.error (AquamarineApiError.ParticleExpired p.id))) := by
  refine ⟨?_, ?_, ?_⟩
  · unfold Plumber.ingest; simp [hexp]
  · unfold Plumber.ingest; simp [hexp]
  · intro hempty
    unfold Plumber.ingest
    simp only [hexp, if_true]
    unfold Plumber.poll
    simp [hempty]

theorem claim1_expired_particle_witness :
    (emptyPlumber.ingest envA 200 pGood none PeerScope.Host).events
      = emptyPlumber.events ++ [Except.error (AquamarineApiError.ParticleExpired pGood.id)]
    ∧ (emptyPlumber.ingest envA 200 pGood none PeerScope.Host).actors = emptyPlumber.actors
    ∧ (emptyPlumber.events = [] →
        (Plumber.poll envA 200 true (emptyPlumber.ingest envA 200 pGood none PeerScope.Host)).1
          = Poll.Ready (Except.error (AquamarineApiError.ParticleExpired pGood.id))) :=
  claim1_expired_particle envA 200 true emptyPlumber pGood none PeerScope.Host (by decide)

/-- Claim C8: a particle that passes the deadline check but fails signature
verification yields exactly one `SignatureVerificationFailed` event and no
actor; the deadline check runs first, so an expired particle with a bad
signature yields `ParticleExpired` instead. -/
theorem claim8_signature_failure (env : Env) (now : Nat) (s : Plumber)
    (p : Particle) (f : Option ServiceFunction) (sc : PeerScope)
    (hv : p.verified = false) :
    ((Deadline.fromParticle p).is_expired now = false →
      (s.ingest env now p f sc).events
        = s.events ++ [Except.error (AquamarineApiError.SignatureVerificationFailed p.id)]
      ∧ (s.ingest env now p f sc).actors = s.actors)
    ∧ ((Deadline.fromParticle p).is_expired now = true →
      (s.ingest env now p f sc).events
        = s.events ++ [Except.error (AquamarineApiError.ParticleExpired p.id)]) := by
  constructor
  · intro hexp
    constructor <;> (unfold Plumber.ingest; simp [hexp, hv])
  · intro hexp
    unfold Plumber.ingest; simp [hexp]

theorem claim8_signature_failure_witness :
    (((Deadline.fromParticle pBadSig).is_expired 120 = false →
      (emptyPlumber.ingest envA 120 pBadSig none PeerScope.Host).events
        = emptyPlumber.events
          ++ [Except.error (AquamarineApiError.SignatureVerificationFailed pBadSig.id)]
      ∧ (emptyPlumber.ingest envA 120 pBadSig none PeerScope.Host).actors
          = emptyPlumber.actors)
    ∧ ((Deadline.fromParticle pBadSig).is_expired 120 = true →
      (emptyPlumber.ingest envA 120 pBadSig none PeerScope.Host).events
        = emptyPlumber.events ++ [Except.error (AquamarineApiError.ParticleExpired pBadSig.id)]))
    ∧ (Deadline.fromParticle pBadSig).is_expired 120 = false :=
  ⟨claim8_signature_failure envA 120 emptyPlumber pBadSig none PeerScope.Host (by decide),
   by decide⟩

/-- Claim C9: a particle routed to an inactive worker whose initiator is
neither the host nor a management peer is dropped silently (the whole plumber
state is unchanged); when the initiator is a management peer or the host,
admission proceeds and the actor for the key exists afterwards. -/
theorem claim9_worker_inactive (env : Env) (now : Nat) (s : Plumber) (p : Particle)
    (f : Option ServiceFunction) (w : PeerId)
    (hexp : (Deadline.fromParticle p).is_expired now = false)
    (hv : p.verified = true) :
    ((env.is_worker_active w = false ∧ env.is_management p.init_peer_id = false
        ∧ env.is_host p.init_peer_id = false) →
      s.ingest env now p f (PeerScope.WorkerId w) = s)
    ∧ ((env.is_management p.init_peer_id = true ∨ env.is_host p.init_peer_id = true) →
      (containsKey s.actors { signature := p.signature, peer_scope := PeerScope.WorkerId w } = true
        ∨ (createActor env (PeerScope.WorkerId w) p).isSome = true) →
      containsKey (s.ingest env now p f (PeerScope.WorkerId w)).actors
        { signature := p.signature, peer_scope := PeerScope.WorkerId w } = true) := by
  constructor
  · rintro ⟨ha, hm, hh⟩
    unfold Plumber.ingest
    simp [hexp, hv, workerAdmissionOk, ha, hm, hh]
  · intro hpriv hcr
    apply ingest_containsKey_self env now s p f (PeerScope.WorkerId w) hexp hv _ hcr
    unfold workerAdmissionOk
    rcases hpriv with hm | hh
    · simp [hm]
    · simp [hh]

theorem claim9_worker_inactive_witness :
    (envA.is_worker_active 8 = false ∧ envA.is_management pGood.init_peer_id = false
      ∧ envA.is_host pGood.init_peer_id = false)
    ∧ emptyPlumber.ingest envA 120 pGood none (PeerScope.WorkerId 8) = emptyPlumber
    ∧ containsKey (emptyPlumber.ingest envA 120 pMgr none (PeerScope.WorkerId 8)).actors
        { signature := pMgr.signature, peer_scope := PeerScope.WorkerId 8 } = true :=
  ⟨by decide,
   (claim9_worker_inactive envA 120 emptyPlumber pGood none 8 (by decide) (by decide)).1
     (by decide),
   (claim9_worker_inactive envA 120 emptyPlumber pMgr none 8 (by decide) (by decide)).2
     (Or.inl (by decide)) (Or.inr (by decide))⟩

/-- Claim C10: when actor creation fails during ingest — the key storage has
no key pair for the scope, or a worker-scope deal-id or runtime-handle lookup
fails — the particle is dropped with no actor created and no event enqueued:
the plumber state is completely unchanged. -/
theorem claim10_creation_failure (env : Env) (now : Nat) (s : Plumber) (p : Particle)
    (f : Option ServiceFunction) (sc : PeerScope)
    (hexp : (Deadline.fromParticle p).is_expired now = false)
    (hv : p.verified = true)
    (hadm : workerAdmissionOk env p sc = true)
    (hmiss : containsKey s.actors { signature := p.signature, peer_scope := sc } = false)
    (hfail : env.get_keypair sc = none
      ∨ ∃ w, sc = PeerScope.WorkerId w
          ∧ (env.get_deal_id w = none ∨ env.get_handle w = none)) :
    s.ingest env now p f sc = s := by
  have hc : createActor env sc p = none := by
    unfold createActor
    cases ht : env.particle_token p.signature with
    | none => rfl
    | some tok =>
      rcases hfail with hk | ⟨w, hw, hwf⟩
      · simp [hk]
      · subst hw
        cases hk : env.get_keypair (PeerScope.WorkerId w) with
        | none => simp
        | some u =>
          rcases hwf with hd | hh
          · simp [hd]
          · cases hdl : env.get_deal_id w with
            | none => simp [hdl]
            | some deal => simp [hdl, hh]
  unfold Plumber.ingest
  simp only [hexp, hv, hadm, Bool.false_eq_true, if_false, Bool.true_eq_false]
  unfold Plumber.get_or_create_actor
  simp [hmiss, hc]

lemma containsKey_false_not_mem (l : List (ActorKey × Actor)) (k : ActorKey)
    (h : containsKey l k = false) :
    k ∉ l.map Prod.fst := by
  intro hmem
  rw [containsKey, (alookup_isSome_mem l k).2 hmem] at h
  exact Bool.noConfusion h

lemma ingest_map_fst_cases (env : Env) (now : Nat) (s : Plumber) (p : Particle)
    (f : Option ServiceFunction) (sc : PeerScope) :
    ((s.ingest env now p f sc).actors.map Prod.fst = s.actors.map Prod.fst)
    ∨ ((s.ingest env now p f sc).actors.map Prod.fst
        = s.actors.map Prod.fst ++ [{ signature := p.signature, peer_scope := sc }]
      ∧ ({ signature := p.signature, peer_scope := sc } : ActorKey) ∉ s.actors.map Prod.fst) := by
  rcases ingest_actors_shape env now s p f sc with hs | ⟨g, hs⟩ | ⟨g, a, hmiss, hs⟩
  · left; rw [hs]
  · left; rw [hs, amodify_map_fst]
  · right
    constructor
    · rw [hs, amodify_map_fst, List.map_append]
      rfl
    · exact containsKey_false_not_mem _ _ hmiss

lemma ingest_nodup (env : Env) (now : Nat) (s : Plumber) (p : Particle)
    (f : Option ServiceFunction) (sc : PeerScope)
    (h : (s.actors.map Prod.fst).Nodup) :
    ((s.ingest env now p f sc).actors.map Prod.fst).Nodup := by
  rcases ingest_map_fst_cases env now s p f sc with hc | ⟨hc, hmem⟩
  · rw [hc]; exact h
  · rw [hc, List.nodup_append]
    refine ⟨h, List.nodup_singleton _, ?_⟩
    intro x hx hx2
    rw [List.mem_singleton] at hx2
    subst hx2
    exact hmem hx

lemma ingest_map_fst_subset (env : Env) (now : Nat) (s : Plumber) (p : Particle)
    (f : Option ServiceFunction) (sc : PeerScope) :
    (s.ingest env now p f sc).actors.map Prod.fst
      ⊆ s.actors.map Prod.fst ++ [{ signature := p.signature, peer_scope := sc }] := by
  rcases ingest_map_fst_cases env now s p f sc with hc | ⟨hc, hmem⟩
  · rw [hc]; exact List.subset_append_left _ _
  · rw [hc]
    exact List.Subset.refl _

lemma ingestAll_nodup_subset (env : Env) (now : Nat) (l : List (Particle × PeerScope)) :
    ∀ s : Plumber, (s.actors.map Prod.fst).Nodup →
      ((Plumber.ingestAll env now s l).actors.map Prod.fst).Nodup
      ∧ (Plumber.ingestAll env now s l).actors.map Prod.fst
          ⊆ s.actors.map Prod.fst
            ++ l.map (fun q => ({ signature := q.1.signature, peer_scope := q.2 } : ActorKey)) := by
  induction l with
  | nil =>
    intro s hnd
    exact ⟨hnd, by simp [Plumber.ingestAll]⟩
  | cons q rest ih =>
    intro s hnd
    have h1 := ingest_nodup env now s q.1 none q.2 hnd
    obtain ⟨ihn, ihs⟩ := ih (s.ingest env now q.1 none q.2) h1
    refine ⟨ihn, ?_⟩
    intro k hk
    have hk2 := ihs hk
    rw [List.mem_append] at hk2
    rcases hk2 with hk2 | hk2
    · have hk3 := ingest_map_fst_subset env now s q.1 none q.2 hk2
      rw [List.mem_append] at hk3
      rcases hk3 with hk3 | hk3
      · rw [List.mem_append]; exact Or.inl hk3
      · rw [List.mem_singleton] at hk3
        subst hk3
        simp
    · simp only [List.map_cons, List.mem_append, List.mem_cons]
      exact Or.inr (Or.inr hk2)

/-- Claim C2: the actor table keeps at most one actor per `(signature,
peer_scope)` key — ingest preserves key uniqueness, a second particle with an
existing key is delivered to the existing actor's mailbox without growing the
table, and after any sequence of ingests from empty the table size is bounded
by the number of distinct keys seen. -/
theorem claim2_actor_table_unique (env : Env) (now : Nat) :
    (∀ (s : Plumber) (p : Particle) (f : Option ServiceFunction) (sc : PeerScope),
      (s.actors.map Prod.fst).Nodup →
      ((s.ingest env now p f sc).actors.map Prod.fst).Nodup)
    ∧ (∀ (s : Plumber) (p : Particle) (f : Option ServiceFunction) (sc : PeerScope) (a : Actor),
      (Deadline.fromParticle p).is_expired now = false →
      p.verified = true →
      workerAdmissionOk env p sc = true →
      alookup s.actors { signature := p.signature, peer_scope := sc } = some a →
      (s.ingest env now p f sc).actors.length = s.actors.length
      ∧ alookup (s.ingest env now p f sc).actors { signature := p.signature, peer_scope := sc }
          = some (match f with
            | some fn => (a.ingestParticle p).set_function fn
            | none => a.ingestParticle p))
    ∧ (∀ l : List (Particle × PeerScope),
      (Plumber.ingestAll env now emptyPlumber l).actors.length
        ≤ (l.map (fun q => ({ signature := q.1.signature, peer_scope := q.2 } : ActorKey))).dedup.length) := by
  refine ⟨?_, ?_, ?_⟩
  · intro s p f sc hnd
    exact ingest_nodup env now s p f sc hnd
  · intro s p f sc a hexp hv hadm hlk
    have hck : containsKey s.actors { signature := p.signature, peer_scope := sc } = true := by
      rw [containsKey, hlk]; rfl
    unfold Plumber.ingest
    simp only [hexp, hv, hadm, Bool.false_eq_true, if_false, Bool.true_eq_false]
    unfold Plumber.get_or_create_actor
    simp only [hck, if_true]
    constructor
    · exact amodify_length _ _ _
    · rw [alookup_amodify_self _ _ _ _ hlk]
  · intro l
    obtain ⟨hnd, hsub⟩ := ingestAll_nodup_subset env now l emptyPlumber (by simp [emptyPlumber])
    have hsub2 : (Plumber.ingestAll env now emptyPlumber l).actors.map Prod.fst
        ⊆ (l.map (fun q => ({ signature := q.1.signature, peer_scope := q.2 } : ActorKey))).dedup := by
      intro k hk
      have := hsub hk
      simp only [emptyPlumber, List.map_nil, List.nil_append] at this
      exact List.mem_dedup.2 this
    have := (hnd.subperm hsub2).length_le
    rw [List.length_map] at this
    exact this

theorem claim2_actor_table_unique_witness :
    (Deadline.fromParticle pGood).is_expired 120 = false
    ∧ (((emptyPlumber.ingest envA 120 pGood none PeerScope.Host).ingest envA 120 pGood none
          PeerScope.Host).actors.map Prod.fst).Nodup
    ∧ (Plumber.ingestAll envA 120 emptyPlumber
        [(pGood, PeerScope.Host), (pGood, PeerScope.Host), (pMgr, PeerScope.Host)]).actors.length
        ≤ ([(pGood, PeerScope.Host), (pGood, PeerScope.Host), (pMgr, PeerScope.Host)].map
            (fun q => ({ signature := q.1.signature, peer_scope := q.2 } : ActorKey))).dedup.length :=
  ⟨by decide,
   (claim2_actor_table_unique envA 120).1 (emptyPlumber.ingest envA 120 pGood none PeerScope.Host)
     pGood none PeerScope.Host (by decide),
   (claim2_actor_table_unique envA 120).2.2
     [(pGood, PeerScope.Host), (pGood, PeerScope.Host), (pMgr, PeerScope.Host)]⟩

theorem claim10_creation_failure_witness :
    containsKey emptyPlumber.actors
      { signature := pGood.signature, peer_scope := PeerScope.Host } = false
    ∧ envB.get_keypair PeerScope.Host = none
    ∧ emptyPlumber.ingest envB 120 pGood none PeerScope.Host = emptyPlumber :=
  ⟨by decide, by decide,
   claim10_creation_failure envB 120 emptyPlumber pGood none PeerScope.Host
     (by decide) (by decide) (by decide) (by decide) (Or.inl (by decide))⟩

/-! Cleanup-phase lemmas (claim C4). -/

lemma retainActors_capped (now : Nat) (l : List (ActorKey × Actor)) (acc : List CleanupKey)
    (h : MAX_CLEANUP_KEYS_SIZE ≤ acc.length) :
    retainActors now l acc = { kept := l, keys := acc } := by
  induction l with
  | nil => simp [retainActors]
  | cons e rest ih =>
    obtain ⟨k, a⟩ := e
    simp [retainActors, h, ih]

lemma keep_filter_of_evict_nil (now : Nat) (l : List (ActorKey × Actor))
    (h : l.filter (fun e => e.2.is_expired now && !e.2.is_executing) = []) :
    l.filter (fun e => !(e.2.is_expired now) || e.2.is_executing) = l := by
  rw [List.filter_eq_self]
  intro e he
  have h2 := List.filter_eq_nil_iff.1 h e he
  revert h2
  cases e.2.is_expired now <;> cases e.2.is_executing <;> simp

lemma retainActors_small (now : Nat) (l : List (ActorKey × Actor)) :
    ∀ acc : List CleanupKey,
    acc.length + (l.filter (fun e => e.2.is_expired now && !e.2.is_executing)).length
        ≤ MAX_CLEANUP_KEYS_SIZE →
    retainActors now l acc
      = { kept := l.filter (fun e => !(e.2.is_expired now) || e.2.is_executing)
          keys := acc ++ (l.filter (fun e => e.2.is_expired now && !e.2.is_executing)).map
              (fun e => e.2.cleanup_key) } := by
  induction l with
  | nil =>
    intro acc h
    simp [retainActors]
  | cons e rest ih =>
    intro acc h
    obtain ⟨k, a⟩ := e
    by_cases hev : (a.is_expired now && !a.is_executing) = true
    · have hkeep : (!(a.is_expired now) || a.is_executing) = false := by
        revert hev
        cases a.is_expired now <;> cases a.is_executing <;> simp
      have hfc : List.filter (fun e => e.2.is_expired now && !e.2.is_executing) ((k, a) :: rest)
          = (k, a) :: rest.filter (fun e => e.2.is_expired now && !e.2.is_executing) := by
        simp [List.filter_cons, hev]
      have hkc : List.filter (fun e => !(e.2.is_expired now) || e.2.is_executing) ((k, a) :: rest)
          = rest.filter (fun e => !(e.2.is_expired now) || e.2.is_executing) := by
        simp [List.filter_cons, hkeep]
      rw [hfc, List.length_cons] at h
      have hlt : ¬ MAX_CLEANUP_KEYS_SIZE ≤ acc.length := by omega
      have h2 : (acc ++ [a.cleanup_key]).length
          + (rest.filter (fun e => e.2.is_expired now && !e.2.is_executing)).length
          ≤ MAX_CLEANUP_KEYS_SIZE := by
        rw [List.length_append]
        simp only [List.length_singleton]
        omega
      have hstep : retainActors now ((k, a) :: rest) acc
          = retainActors now rest (acc ++ [a.cleanup_key]) := by
        simp only [retainActors, hlt, if_false, hkeep, Bool.false_eq_true, if_true]
      rw [hstep, ih (acc ++ [a.cleanup_key]) h2, hfc, hkc]
      simp
    · rw [Bool.not_eq_true] at hev
      have hkeep : (!(a.is_expired now) || a.is_executing) = true := by
        revert hev
        cases a.is_expired now <;> cases a.is_executing <;> simp
      have hfc : List.filter (fun e => e.2.is_expired now && !e.2.is_executing) ((k, a) :: rest)
          = rest.filter (fun e => e.2.is_expired now && !e.2.is_executing) := by
        simp [List.filter_cons, hev]
      have hkc : List.filter (fun e => !(e.2.is_expired now) || e.2.is_executing) ((k, a) :: rest)
          = (k, a) :: rest.filter (fun e => !(e.2.is_expired now) || e.2.is_executing) := by
        simp [List.filter_cons, hkeep]
      rw [hfc] at h
      by_cases hcap : MAX_CLEANUP_KEYS_SIZE ≤ acc.length
      · have hlen0 : (rest.filter (fun e => e.2.is_expired now && !e.2.is_executing)).length = 0 := by
          omega
        have hfl : rest.filter (fun e => e.2.is_expired now && !e.2.is_executing) = [] := by
          cases hres : rest.filter (fun e => e.2.is_expired now && !e.2.is_executing) with
          | nil => rfl
          | cons x xs => rw [hres] at hlen0; simp at hlen0
        have hstep : retainActors now ((k, a) :: rest) acc
            = { kept := (k, a) :: (retainActors now rest acc).kept
                keys := (retainActors now rest acc).keys } := by
          simp only [retainActors, hcap, if_true]
        rw [hstep, retainActors_capped now rest acc hcap, hkc, hfc, hfl,
          keep_filter_of_evict_nil now rest hfl]
        simp
      · have hstep : retainActors now ((k, a) :: rest) acc
            = { kept := (k, a) :: (retainActors now rest acc).kept
                keys := (retainActors now rest acc).keys } := by
          simp only [retainActors, hcap, if_false, hkeep, if_true]
        rw [hstep, ih acc h, hkc, hfc]

lemma retainActors_keys_le (now : Nat) (l : List (ActorKey × Actor)) :
    ∀ acc : List CleanupKey, acc.length ≤ MAX_CLEANUP_KEYS_SIZE →
    (retainActors now l acc).keys.length ≤ MAX_CLEANUP_KEYS_SIZE := by
  induction l with
  | nil =>
    intro acc h
    simpa [retainActors] using h
  | cons e rest ih =>
    intro acc h
    obtain ⟨k, a⟩ := e
    by_cases hcap : MAX_CLEANUP_KEYS_SIZE ≤ acc.length
    · simp only [retainActors, hcap, if_true]
      exact ih acc h
    · by_cases hkeep : (!(a.is_expired now) || a.is_executing) = true
      · simp only [retainActors, hcap, if_false, hkeep, if_true]
        exact ih acc h
      · simp only [retainActors, hcap, if_false, hkeep, Bool.false_eq_true]
        apply ih (acc ++ [a.cleanup_key])
        rw [List.length_append]
        simp only [List.length_singleton]
        omega

/-- Claim C4: in a poll with no cleanup batch in flight the cleanup phase
evicts exactly the actors that are expired and not executing (when they fit
the key cap), collecting their cleanup keys into a single batch; the
collected batch never exceeds `MAX_CLEANUP_KEYS_SIZE = 1024` keys and once
the cap is reached every remaining actor is retained; while a cleanup batch
is in flight no actor is evicted and no second batch is started. -/
theorem claim4_cleanup (now : Nat) (cr : Bool) (s : Plumber) :
    (s.cleanup_future = none →
      (s.actors.filter (fun e => e.2.is_expired now && !e.2.is_executing)).length
          ≤ MAX_CLEANUP_KEYS_SIZE →
      (s.cleanupStep now cr).actors
          = s.actors.filter (fun e => !(e.2.is_expired now) || e.2.is_executing)
      ∧ (s.cleanupStep now cr).cleanup_future
          = (if ((s.actors.filter (fun e => e.2.is_expired now && !e.2.is_executing)).map
                  (fun e => e.2.cleanup_key)).isEmpty = true
             then none
             else some ((s.actors.filter (fun e => e.2.is_expired now && !e.2.is_executing)).map
                  (fun e => e.2.cleanup_key))))
    ∧ (retainActors now s.actors []).keys.length ≤ MAX_CLEANUP_KEYS_SIZE
    ∧ (∀ acc : List CleanupKey, MAX_CLEANUP_KEYS_SIZE ≤ acc.length →
        retainActors now s.actors acc = { kept := s.actors, keys := acc })
    ∧ (∀ ks, s.cleanup_future = some ks → s.cleanupStep now false = s) := by
  refine ⟨?_, ?_, ?_, ?_⟩
  · intro hcf hlen
    unfold Plumber.cleanupStep
    simp only [hcf, Option.isSome_none, Bool.false_and, Bool.false_eq_true, if_false,
      Option.isNone_none, if_true]
    rw [retainActors_small now s.actors [] (by simpa using hlen)]
    simp
  · exact retainActors_keys_le now s.actors [] (by simp [MAX_CLEANUP_KEYS_SIZE])
  · intro acc h
    exact retainActors_capped now s.actors acc h
  · intro ks hks
    unfold Plumber.cleanupStep
    simp [hks]

/-! Discovery lemmas (claims C3, C5, C7). -/

lemma discover_lookup_hit (env : KadEnv) (now : Nat) (k : Kademlia) (p : PeerId) (out : Chan)
    (x : Multiaddr) (xs : List Multiaddr) (hl : env.addresses_of_peer p = x :: xs) :
    k.discover_peer env now p out
      = { state := k, replies := [(out, Except.ok (x :: xs))], issued := [] } := by
  unfold Kademlia.discover_peer
  simp [hl]

lemma discover_banned (env : KadEnv) (now : Nat) (k : Kademlia) (p : PeerId) (out : Chan)
    (ha : env.addresses_of_peer p = []) (hb : k.is_banned p = true) :
    k.discover_peer env now p out
      = { state := k, replies := [(out, Except.error KademliaError.PeerBanned)], issued := [] } := by
  unfold Kademlia.discover_peer
  simp [ha, hb]

lemma discover_first (env : KadEnv) (now : Nat) (k : Kademlia) (p : PeerId) (out : Chan)
    (ha : env.addresses_of_peer p = []) (hb : k.is_banned p = false)
    (hpe : (alookup k.pending_peers p).getD [] = []) :
    k.discover_peer env now p out
      = { state := { k with
            pending_peers := ainsert k.pending_peers p [{ out := out, created := now }]
            queries := k.queries ++ [(k.next_query_id, PendingQuery.Peer p)]
            next_query_id := k.next_query_id + 1 }
          replies := []
          issued := [p] } := by
  unfold Kademlia.discover_peer
  simp [ha, hb, hpe]

lemma discover_queued (env : KadEnv) (now : Nat) (k : Kademlia) (p : PeerId) (out : Chan)
    (ps : List KadPendingPeer)
    (ha : env.addresses_of_peer p = []) (hb : k.is_banned p = false)
    (hps : alookup k.pending_peers p = some ps) (hne : ps ≠ []) :
    k.discover_peer env now p out
      = { state := { k with
            pending_peers := ainsert k.pending_peers p (ps ++ [{ out := out, created := now }]) }
          replies := []
          issued := [] } := by
  unfold Kademlia.discover_peer
  have hmt : ps.isEmpty = false := by
    cases ps with
    | nil => exact absurd rfl hne
    | cons u us => rfl
  simp [ha, hb, hps, hmt]

/-- Claim C5: `discover_peer` replies `Ok(addresses)` immediately from a
non-empty local table; replies `PeerBanned` for a banned peer; otherwise
appends a waiter and issues a `get_closest_peers` query only when the pending
list was empty — so two back-to-back calls with an empty local table produce
exactly one DHT query with both waiters queued behind it. -/
theorem claim5_discover_dedup (env : KadEnv) (now : Nat) (k : Kademlia) (p : PeerId)
    (out out2 : Chan) :
    ((∀ x xs, env.addresses_of_peer p = x :: xs →
      k.discover_peer env now p out
        = { state := k, replies := [(out, Except.ok (x :: xs))], issued := [] }))
    ∧ (env.addresses_of_peer p = [] → k.is_banned p = true →
      k.discover_peer env now p out
        = { state := k, replies := [(out, Except.error KademliaError.PeerBanned)], issued := [] })
    ∧ (env.addresses_of_peer p = [] → k.is_banned p = false →
      (alookup k.pending_peers p).getD [] = [] →
      (k.discover_peer env now p out).issued = [p]
      ∧ (k.discover_peer env now p out).replies = []
      ∧ alookup (k.discover_peer env now p out).state.pending_peers p
          = some [{ out := out, created := now }]
      ∧ (k.discover_peer env now p out).state.queries
          = k.queries ++ [(k.next_query_id, PendingQuery.Peer p)])
    ∧ (∀ ps, env.addresses_of_peer p = [] → k.is_banned p = false →
      alookup k.pending_peers p = some ps → ps ≠ [] →
      (k.discover_peer env now p out).issued = []
      ∧ alookup (k.discover_peer env now p out).state.pending_peers p
          = some (ps ++ [{ out := out, created := now }])
      ∧ (k.discover_peer env now p out).state.queries = k.queries)
    ∧ (env.addresses_of_peer p = [] → k.is_banned p = false →
      (alookup k.pending_peers p).getD [] = [] →
      (k.discover_peer env now p out).issued = [p]
      ∧ (((k.discover_peer env now p out).state).discover_peer env now p out2).issued = []
      ∧ alookup ((((k.discover_peer env now p out).state).discover_peer env now p
            out2)).state.pending_peers p
          = some [{ out := out, created := now }, { out := out2, created := now }]
      ∧ ((((k.discover_peer env now p out).state).discover_peer env now p out2)).state.queries
          = (k.discover_peer env now p out).state.queries) := by
  refine ⟨?_, ?_, ?_, ?_, ?_⟩
  · intro x xs hl
    exact discover_lookup_hit env now k p out x xs hl
  · intro ha hb
    exact discover_banned env now k p out ha hb
  · intro ha hb hpe
    rw [discover_first env now k p out ha hb hpe]
    refine ⟨rfl, rfl, ?_, rfl⟩
    exact alookup_ainsert_self _ _ _
  · intro ps ha hb hps hne
    rw [discover_queued env now k p out ps ha hb hps hne]
    refine ⟨rfl, ?_, rfl⟩
    exact alookup_ainsert_self _ _ _
  · intro ha hb hpe
    rw [discover_first env now k p out ha hb hpe]
    have hb2 : Kademlia.is_banned
        { k with
          pending_peers := ainsert k.pending_peers p [{ out := out, created := now }]
          queries := k.queries ++ [(k.next_query_id, PendingQuery.Peer p)]
          next_query_id := k.next_query_id + 1 } p = false := by
      unfold Kademlia.is_banned at hb ⊢
      exact hb
    have hps2 : alookup (ainsert k.pending_peers p [{ out := out, created := now }]) p
        = some [{ out := out, created := now }] := alookup_ainsert_self _ _ _
    rw [discover_queued env now _ p out2 [{ out := out, created := now }] ha hb2 hps2
      (by simp)]
    refine ⟨rfl, rfl, ?_, rfl⟩
    exact alookup_ainsert_self _ _ _

theorem claim5_discover_dedup_witness :
    (kadA.discover_peer kenvSome 9 3 70
      = { state := kadA, replies := [(70, Except.ok [30])], issued := [] })
    ∧ ((kadA.discover_peer kenvEmpty 9 5 70).issued = [5]
      ∧ (((kadA.discover_peer kenvEmpty 9 5 70).state).discover_peer kenvEmpty 9 5 71).issued = []
      ∧ alookup ((((kadA.discover_peer kenvEmpty 9 5 70).state).discover_peer kenvEmpty 9 5
            71)).state.pending_peers 5
          = some [{ out := 70, created := 9 }, { out := 71, created := 9 }]
      ∧ ((((kadA.discover_peer kenvEmpty 9 5 70).state).discover_peer kenvEmpty 9 5 71)).state.queries
          = (kadA.discover_peer kenvEmpty 9 5 70).state.queries) :=
  ⟨(claim5_discover_dedup kenvSome 9 kadA 3 70 71).1 30 [] (by decide),
   (claim5_discover_dedup kenvEmpty 9 kadA 5 70 71).2.2.2.2 (by decide) (by decide) (by decide)⟩

lemma extractTimedOut_spec (cfg : KademliaConfig) (now : Nat) (peers : List KadPendingPeer) :
    ∀ wake : Nat,
    (extractTimedOut cfg now peers wake).expired
        = peers.filter (fun q => decide (cfg.query_timeout * 2 ≤ now - q.created))
    ∧ (extractTimedOut cfg now peers wake).kept
        = peers.filter (fun q => !(decide (cfg.query_timeout * 2 ≤ now - q.created))) := by
  induction peers with
  | nil =>
    intro wake
    simp [extractTimedOut]
  | cons q rest ih =>
    intro wake
    by_cases ht : cfg.query_timeout * 2 ≤ now - q.created
    · simp [extractTimedOut, has_timed_out, ht, ih, List.filter_cons]
    · simp [extractTimedOut, has_timed_out, ht, ih, List.filter_cons]

/-- Claim C7: in a sweep, each pending waiter whose age reached twice the
query timeout is drained and replied `PeerTimedOut`; the peer failure count
is incremented by exactly one when at least one waiter expired (regardless of
how many); entries left empty are dropped. -/
theorem claim7_pending_timeout_sweep (cfg : KademliaConfig) (now : Nat) (id : PeerId)
    (peers : List KadPendingPeer) (failed : List (PeerId × FailedPeer)) (wake : Nat)
    (k : Kademlia) (hconf : k.config = cfg) (hpend : k.pending_peers = [(id, peers)])
    (hfail : k.failed_peers = failed) :
    (sweepPending cfg now [(id, peers)] failed wake).replies
        = (peers.filter (fun q => decide (cfg.query_timeout * 2 ≤ now - q.created))).map
            (fun q => ((q.out, Except.error KademliaError.PeerTimedOut) : KadReply))
    ∧ (sweepPending cfg now [(id, peers)] failed wake).pending
        = (if (peers.filter (fun q => !(decide (cfg.query_timeout * 2 ≤ now - q.created)))).isEmpty
              = true
           then []
           else [(id, peers.filter (fun q => !(decide (cfg.query_timeout * 2 ≤ now - q.created))))])
    ∧ (sweepPending cfg now [(id, peers)] failed wake).failed
        = (if (peers.filter (fun q => decide (cfg.query_timeout * 2 ≤ now - q.created))).isEmpty
              = true
           then failed
           else incrementFailed failed id)
    ∧ (∀ f0, alookup failed id = some f0 →
        alookup (incrementFailed failed id) id = some { f0 with count := f0.count + 1 })
    ∧ (alookup failed id = none →
        alookup (incrementFailed failed id) id = some { ban := none, count := 1 })
    ∧ (Kademlia.sweep now k).replies
        = (sweepPending cfg now [(id, peers)] failed
            (min cfg.query_timeout cfg.ban_cooldown)).replies := by
  obtain ⟨hex, hkp⟩ := extractTimedOut_spec cfg now peers wake
  refine ⟨?_, ?_, ?_, ?_, ?_, ?_⟩
  · simp [sweepPending, hex]
  · simp [sweepPending, hkp]
  · simp [sweepPending, hex]
  · intro f0 h0
    unfold incrementFailed
    rw [h0]
    simp only [Option.getD_some]
    rw [alookup_ainsert_self]
    rfl
  · intro h0
    unfold incrementFailed
    rw [h0]
    simp only [Option.getD_none]
    rw [alookup_ainsert_self]
    rfl
  · unfold Kademlia.sweep
    simp [hpend, hfail, hconf]

theorem claim7_pending_timeout_sweep_witness :
    (sweepPending kcfgA 25 [(5, pendList)] [] 7).replies
        = (pendList.filter
            (fun q => decide (kcfgA.query_timeout * 2 ≤ 25 - q.created))).map
            (fun q => ((q.out, Except.error KademliaError.PeerTimedOut) : KadReply))
    ∧ (sweepPending kcfgA 25 [(5, pendList)] [] 7).failed
        = (if (pendList.filter
              (fun q => decide (kcfgA.query_timeout * 2 ≤ 25 - q.created))).isEmpty = true
           then ([] : List (PeerId × FailedPeer))
           else incrementFailed [] 5)
    ∧ (Kademlia.sweep 25 kadPend).replies
        = (sweepPending kcfgA 25 [(5, pendList)] []
            (min kcfgA.query_timeout kcfgA.ban_cooldown)).replies :=
  ⟨(claim7_pending_timeout_sweep kcfgA 25 5 pendList [] 7 kadPend (by decide) (by decide)
      (by decide)).1,
   (claim7_pending_timeout_sweep kcfgA 25 5 pendList [] 7 kadPend (by decide) (by decide)
      (by decide)).2.2.1,
   (claim7_pending_timeout_sweep kcfgA 25 5 pendList [] 7 kadPend (by decide) (by decide)
      (by decide)).2.2.2.2.2⟩

/-- Claim C3: a peer whose failure count reached `peer_fail_threshold` gets
banned at the next sweep; while banned, `discover_peer` with an empty local
table replies `PeerBanned`; a sweep at which the ban cooldown has elapsed
removes the failure record, after which discovery is allowed again (a new
waiter and DHT query are produced); any successful discovery event clears
the failure record immediately. -/
theorem claim3_ban_lifecycle (env : KadEnv) (cfg : KademliaConfig) (now : Nat)
    (p : PeerId) (f : FailedPeer) (k : Kademlia)
    (hconf : k.config = cfg) (hpend : k.pending_peers = [])
    (hfail : k.failed_peers = [(p, f)]) :
    (f.ban = none → cfg.peer_fail_threshold ≤ f.count →
      (Kademlia.sweep now k).state.failed_peers = [(p, { f with ban := some now })])
    ∧ (∀ (k2 : Kademlia) (out : Chan), env.addresses_of_peer p = [] →
      k2.is_banned p = true →
      k2.discover_peer env now p out
        = { state := k2, replies := [(out, Except.error KademliaError.PeerBanned)], issued := [] })
    ∧ (∀ b, f.ban = some b → cfg.ban_cooldown ≤ now - b →
      (Kademlia.sweep now k).state.failed_peers = [])
    ∧ (∀ (k3 : Kademlia) (out : Chan), k3.failed_peers = [] →
      (alookup k3.pending_peers p).getD [] = [] →
      env.addresses_of_peer p = [] →
      (k3.discover_peer env now p out).issued = [p]
      ∧ alookup (k3.discover_peer env now p out).state.pending_peers p
          = some [{ out := out, created := now }])
    ∧ (∀ (k4 : Kademlia) (addrs : List Multiaddr),
      (k4.failed_peers.map Prod.fst).Nodup →
      alookup (k4.peer_discovered p addrs).state.failed_peers p = none) := by
  refine ⟨?_, ?_, ?_, ?_, ?_⟩
  · intro hbn hcnt
    unfold Kademlia.sweep
    simp [hpend, hfail, hconf, sweepPending, sweepFailed, hbn, hcnt]
  · intro k2 out ha hb
    exact discover_banned env now k2 p out ha hb
  · intro b hbs hcd
    unfold Kademlia.sweep
    simp [hpend, hfail, hconf, sweepPending, sweepFailed, hbs, has_timed_out, hcd]
  · intro k3 out hf3 hp3 ha
    have hb3 : k3.is_banned p = false := by
      unfold Kademlia.is_banned
      simp [hf3, alookup]
    rw [discover_first env now k3 p out ha hb3 hp3]
    exact ⟨rfl, alookup_ainsert_self _ _ _⟩
  · intro k4 addrs hnd
    unfold Kademlia.peer_discovered
    exact aremove_nodup_alookup _ _ hnd

theorem claim3_ban_lifecycle_witness :
    ((Kademlia.sweep 200 kadFail).state.failed_peers
        = [(5, { ban := some 200, count := 2 })])
    ∧ (kadBan.discover_peer kenvEmpty 200 5 70
        = { state := kadBan, replies := [(70, Except.error KademliaError.PeerBanned)]
            issued := [] })
    ∧ ((Kademlia.sweep 150 kadBan).state.failed_peers = [])
    ∧ ((kadA.discover_peer kenvEmpty 200 5 70).issued = [5]
      ∧ alookup (kadA.discover_peer kenvEmpty 200 5 70).state.pending_peers 5
          = some [{ out := 70, created := 200 }])
    ∧ alookup (kadBan.peer_discovered 5 [33]).state.failed_peers 5 = none :=
  ⟨(claim3_ban_lifecycle kenvEmpty kcfgA 200 5 { ban := none, count := 2 } kadFail
      (by decide) (by decide) (by decide)).1 (by decide) (by decide),
   (claim3_ban_lifecycle kenvEmpty kcfgA 200 5 { ban := some 40, count := 2 } kadBan
      (by decide) (by decide) (by decide)).2.1 kadBan 70 (by decide) (by decide),
   (claim3_ban_lifecycle kenvEmpty kcfgA 150 5 { ban := some 40, count := 2 } kadBan
      (by decide) (by decide) (by decide)).2.2.1 40 (by decide) (by decide),
   (claim3_ban_lifecycle kenvEmpty kcfgA 200 5 { ban := some 40, count := 2 } kadBan
      (by decide) (by decide) (by decide)).2.2.2.1 kadA 70 (by decide) (by decide) (by decide),
   (claim3_ban_lifecycle kenvEmpty kcfgA 200 5 { ban := some 40, count := 2 } kadBan
      (by decide) (by decide) (by decide)).2.2.2.2 kadBan [33] (by decide)⟩

/-! Effects-partition lemmas (claim C6). -/

lemma partitionPeers_go (env : Env) (peers : List PeerId) :
    ∀ acc : List PeerId × List PeerScope,
    peers.foldl
      (fun acc q =>
        match env.scope q with
        | none => (acc.1 ++ [q], acc.2)
        | some sc => (acc.1, acc.2 ++ [sc]))
      acc
      = (acc.1 ++ peers.filter (fun q => (env.scope q).isNone),
         acc.2 ++ peers.filterMap env.scope) := by
  induction peers with
  | nil =>
    intro acc
    simp
  | cons q rest ih =>
    intro acc
    cases hq : env.scope q with
    | none =>
      simp only [List.foldl_cons, hq, ih, List.filter_cons, List.filterMap_cons,
        Option.isNone_none, if_true]
      simp
    | some sc =>
      simp only [List.foldl_cons, hq, ih, List.filter_cons, List.filterMap_cons,
        Option.isNone_some, Bool.false_eq_true, if_false]
      simp

lemma partitionPeers_eq (env : Env) (peers : List PeerId) :
    partitionPeers env peers
      = (peers.filter (fun q => (env.scope q).isNone), peers.filterMap env.scope) := by
  unfold partitionPeers
  rw [partitionPeers_go]
  simp

lemma partition_length (env : Env) (peers : List PeerId) :
    (peers.filter (fun q => (env.scope q).isNone)).length
      + (peers.filterMap env.scope).length = peers.length := by
  induction peers with
  | nil => simp
  | cons q rest ih =>
    cases hq : env.scope q with
    | none =>
      simp only [List.filter_cons, List.filterMap_cons, hq, Option.isNone_none, if_true]
      simp only [List.length_cons]
      omega
    | some sc =>
      simp only [List.filter_cons, List.filterMap_cons, hq, Option.isNone_some,
        Bool.false_eq_true, if_false]
      simp only [List.length_cons]
      omega

lemma partition_mem (env : Env) (peers : List PeerId) (q : PeerId) (hq : q ∈ peers) :
    (env.scope q = none ∧ q ∈ peers.filter (fun q2 => (env.scope q2).isNone))
    ∨ (∃ sc, env.scope q = some sc ∧ sc ∈ peers.filterMap env.scope) := by
  cases hsc : env.scope q with
  | none =>
    left
    exact ⟨rfl, List.mem_filter.2 ⟨hq, by simp [hsc]⟩⟩
  | some sc =>
    right
    exact ⟨sc, rfl, List.mem_filterMap.2 ⟨q, hq, hsc⟩⟩

lemma foldl_ingest_mono (env : Env) (now : Nat) (p : Particle) (scopes : List PeerScope) :
    ∀ (s : Plumber) (k2 : ActorKey), containsKey s.actors k2 = true →
    containsKey ((scopes.foldl (fun st sc => st.ingest env now p none sc) s)).actors k2 = true := by
  induction scopes with
  | nil =>
    intro s k2 h
    simpa using h
  | cons sc0 rest ih =>
    intro s k2 h
    simp only [List.foldl_cons]
    exact ih _ k2 (ingest_containsKey_mono env now s p none sc0 k2 h)

lemma ingestScopes_spec (env : Env) (now : Nat) (p : Particle) (scopes : List PeerScope) :
    ∀ s : Plumber,
    (Deadline.fromParticle p).is_expired now = false →
    p.verified = true →
    (∀ sc ∈ scopes, workerAdmissionOk env p sc = true) →
    (∀ sc ∈ scopes, (createActor env sc p).isSome = true) →
    (scopes.foldl (fun st sc => st.ingest env now p none sc) s).events = s.events
    ∧ ∀ sc ∈ scopes,
        containsKey (scopes.foldl (fun st sc => st.ingest env now p none sc) s).actors
          { signature := p.signature, peer_scope := sc } = true := by
  induction scopes with
  | nil =>
    intro s hexp hv hadm hcr
    simp
  | cons sc0 rest ih =>
    intro s hexp hv hadm hcr
    simp only [List.foldl_cons]
    obtain ⟨ihev, ihkeys⟩ := ih (s.ingest env now p none sc0) hexp hv
      (fun sc hsc => hadm sc (List.mem_cons_of_mem sc0 hsc))
      (fun sc hsc => hcr sc (List.mem_cons_of_mem sc0 hsc))
    constructor
    · rw [ihev, ingest_events_of_admissible env now s p none sc0 hexp hv]
    · intro sc hsc
      rcases List.mem_cons.1 hsc with hsc0 | hscr
      · subst hsc0
        apply foldl_ingest_mono env now p rest
        exact ingest_containsKey_self env now s p none sc hexp hv
          (hadm sc (List.mem_cons_self sc rest))
          (Or.inr (hcr sc (List.mem_cons_self sc rest)))
      · exact ihkeys sc hscr

/-- Claim C6: the next peers of a completed execution are partitioned by the
scope registry so that each peer lands on exactly one side; the remote side
(when non-empty) is appended to the event queue as an `Ok` remote routing
effect and is what poll returns, and every local-side scope is re-ingested by
a recursive ingest before poll returns, so its actor key exists in the
post-poll actor table. -/
theorem claim6_effects_partition (env : Env) (now : Nat) (cr : Bool) (k0 : ActorKey)
    (a0 : Actor) (r : InterpretationResult) (recs : List Nat)
    (hslot : a0.slot = ExecSlot.finished r)
    (hnexp : a0.deadline.is_expired now = false)
    (hvm : r.vm = none)
    (hpexp : (Deadline.fromParticle r.particle).is_expired now = false)
    (hpv : r.particle.verified = true)
    (hadm : ∀ sc ∈ r.next_peers.filterMap env.scope,
      workerAdmissionOk env r.particle sc = true)
    (hcr : ∀ sc ∈ r.next_peers.filterMap env.scope,
      (createActor env sc r.particle).isSome = true) :
    (r.next_peers.filter (fun q => (env.scope q).isNone)).length
        + (r.next_peers.filterMap env.scope).length = r.next_peers.length
    ∧ (∀ q ∈ r.next_peers,
        (env.scope q = none ∧ q ∈ r.next_peers.filter (fun q2 => (env.scope q2).isNone))
        ∨ (∃ sc, env.scope q = some sc ∧ sc ∈ r.next_peers.filterMap env.scope))
    ∧ (Plumber.poll env now cr
        { events := [], actors := [(k0, a0)]
          vm_pool := { free := [], recreating := recs }, cleanup_future := none }).1
        = (if (r.next_peers.filter (fun q => (env.scope q).isNone)).isEmpty = true
           then Poll.Pending
           else Poll.Ready (Except.ok
              { particle := r.particle
                next_peers := r.next_peers.filter (fun q => (env.scope q).isNone) }))
    ∧ (∀ sc ∈ r.next_peers.filterMap env.scope,
        containsKey (Plumber.poll env now cr
          { events := [], actors := [(k0, a0)]
            vm_pool := { free := [], recreating := recs }, cleanup_future := none }).2.actors
          { signature := r.particle.signature, peer_scope := sc } = true) := by
  have ha1exp : ({ a0 with slot := ExecSlot.idle } : Actor).is_expired now = false := by
    simpa [Actor.is_expired] using hnexp
  have ha1exec : ({ a0 with slot := ExecSlot.idle } : Actor).is_executing = false := by
    simp [Actor.is_executing]
  have hd : drainGo env [(k0, a0)] { free := [], recreating := recs }
      = { actors := [(k0, { a0 with slot := ExecSlot.idle })]
          pool := { free := [], recreating := recs ++ [r.vm_id] }
          remotes := if (r.next_peers.filter (fun q => (env.scope q).isNone)).isEmpty
            then []
            else [{ particle := r.particle
                    next_peers := r.next_peers.filter (fun q => (env.scope q).isNone) }]
          locals := if (r.next_peers.filterMap env.scope).isEmpty
            then []
            else [{ particle := r.particle, next_peers := r.next_peers.filterMap env.scope }]
          mailbox_size := a0.mailbox.length + 0 } := by
    simp [drainGo, hslot, hvm, partitionPeers_eq, VmPool.recreate_avm]
  have hretain : retainActors now [(k0, ({ a0 with slot := ExecSlot.idle } : Actor))] []
      = { kept := [(k0, ({ a0 with slot := ExecSlot.idle } : Actor))], keys := [] } := by
    have h1 : ¬ MAX_CLEANUP_KEYS_SIZE ≤ ([] : List CleanupKey).length := by
      simp [MAX_CLEANUP_KEYS_SIZE]
    have h2 : (!(({ a0 with slot := ExecSlot.idle } : Actor).is_expired now)
        || ({ a0 with slot := ExecSlot.idle } : Actor).is_executing) = true := by
      rw [ha1exp, ha1exec]
      rfl
    simp [retainActors, h1, h2]
  have hclean : Plumber.cleanupStep now cr
      ({ events := [], actors := [(k0, { a0 with slot := ExecSlot.idle })]
         vm_pool := { free := [], recreating := recs ++ [r.vm_id] }
         cleanup_future := none } : Plumber)
      = ({ events := [], actors := [(k0, { a0 with slot := ExecSlot.idle })]
           vm_pool := { free := [], recreating := recs ++ [r.vm_id] }
           cleanup_future := none } : Plumber) := by
    unfold Plumber.cleanupStep
    simp [hretain]
  have hdis : dispatchGo [(k0, ({ a0 with slot := ExecSlot.idle } : Actor))]
      { free := [], recreating := recs ++ [r.vm_id] }
      = { actors := [(k0, ({ a0 with slot := ExecSlot.idle } : Actor))]
          pool := { free := [], recreating := recs ++ [r.vm_id] } } := by
    simp [dispatchGo, VmPool.get_vm]
  have hpoll : Plumber.poll env now cr
      ({ events := [], actors := [(k0, a0)]
         vm_pool := { free := [], recreating := recs }, cleanup_future := none } : Plumber)
      = (let s4 := Plumber.ingestLocals env now
            ({ events := [], actors := [(k0, { a0 with slot := ExecSlot.idle })]
               vm_pool := { free := [], recreating := recs ++ [r.vm_id] }
               cleanup_future := none } : Plumber)
            (if (r.next_peers.filterMap env.scope).isEmpty
             then []
             else [{ particle := r.particle, next_peers := r.next_peers.filterMap env.scope }])
         let rem : List RemoteRoutingEffects :=
            if (r.next_peers.filter (fun q => (env.scope q).isNone)).isEmpty
            then []
            else [{ particle := r.particle
                    next_peers := r.next_peers.filter (fun q => (env.scope q).isNone) }]
         let s5 : Plumber := { s4 with events := s4.events ++ List.map Except.ok rem }
         match s5.events with
         | e :: rest => (Poll.Ready e, { s5 with events := rest })
         | [] => (Poll.Pending, s5)) := by
    simp only [Plumber.poll, hd, hclean, hdis]
  refine ⟨partition_length env r.next_peers,
    fun q hq => partition_mem env r.next_peers q hq, ?_, ?_⟩
  · rw [hpoll]
    cases hM : r.next_peers.filterMap env.scope with
    | nil =>
      simp only [hM, List.isEmpty_nil, if_true]
      cases hF : r.next_peers.filter (fun q => (env.scope q).isNone) with
      | nil =>
        simp [Plumber.ingestLocals]
      | cons x xs =>
        simp [Plumber.ingestLocals]
    | cons m ms =>
      simp only [hM, List.isEmpty_cons, Bool.false_eq_true, if_false]
      obtain ⟨hev, _⟩ := ingestScopes_spec env now r.particle (m :: ms)
        ({ events := [], actors := [(k0, { a0 with slot := ExecSlot.idle })]
           vm_pool := { free := [], recreating := recs ++ [r.vm_id] }
           cleanup_future := none } : Plumber)
        hpexp hpv (by rw [← hM]; exact hadm) (by rw [← hM]; exact hcr)
      simp only [Plumber.ingestLocals, List.foldl_cons, List.foldl_nil] at hev ⊢
      rw [hev]
      cases hF : r.next_peers.filter (fun q => (env.scope q).isNone) with
      | nil => simp
      | cons x xs => simp
  · intro sc hsc
    rw [hpoll]
    cases hM : r.next_peers.filterMap env.scope with
    | nil =>
      rw [hM] at hsc
      exact absurd hsc (List.not_mem_nil sc)
    | cons m ms =>
      rw [hM] at hsc
      simp only [hM, List.isEmpty_cons, Bool.false_eq_true, if_false]
      obtain ⟨hev, hkeys⟩ := ingestScopes_spec env now r.particle (m :: ms)
        ({ events := [], actors := [(k0, { a0 with slot := ExecSlot.idle })]
           vm_pool := { free := [], recreating := recs ++ [r.vm_id] }
           cleanup_future := none } : Plumber)
        hpexp hpv (by rw [← hM]; exact hadm) (by rw [← hM]; exact hcr)
      have hkey := hkeys sc hsc
      simp only [Plumber.ingestLocals, List.foldl_cons, List.foldl_nil] at hev hkey ⊢
      rw [hev]
      cases hF : r.next_peers.filter (fun q => (env.scope q).isNone) with
      | nil => simpa using hkey
      | cons x xs => simpa using hkey

theorem claim6_effects_partition_witness :
    ((resA.next_peers.filter (fun q => (envA.scope q).isNone)).length
        + (resA.next_peers.filterMap envA.scope).length = resA.next_peers.length)
    ∧ ((Plumber.poll envA 120 true
        { events := [], actors := [(keyA, actorA)]
          vm_pool := { free := [], recreating := [] }, cleanup_future := none }).1
        = (if (resA.next_peers.filter (fun q => (envA.scope q).isNone)).isEmpty = true
           then Poll.Pending
           else Poll.Ready (Except.ok
              { particle := resA.particle
                next_peers := resA.next_peers.filter (fun q => (envA.scope q).isNone) })))
    ∧ (∀ sc ∈ resA.next_peers.filterMap envA.scope,
        containsKey (Plumber.poll envA 120 true
          { events := [], actors := [(keyA, actorA)]
            vm_pool := { free := [], recreating := [] }, cleanup_future := none }).2.actors
          { signature := resA.particle.signature, peer_scope := sc } = true) :=
  ⟨(claim6_effects_partition envA 120 true keyA actorA resA [] (by decide) (by decide)
      (by decide) (by decide) (by decide) (by decide) (by decide)).1,
   (claim6_effects_partition envA 120 true keyA actorA resA [] (by decide) (by decide)
      (by decide) (by decide) (by decide) (by decide) (by decide)).2.2.1,
   (claim6_effects_partition envA 120 true keyA actorA resA [] (by decide) (by decide)
      (by decide) (by decide) (by decide) (by decide) (by decide)).2.2.2⟩

theorem claim4_cleanup_witness :
    ((plumberC4.cleanupStep 200 true).actors
        = plumberC4.actors.filter (fun e => !(e.2.is_expired 200) || e.2.is_executing)
      ∧ (plumberC4.cleanupStep 200 true).cleanup_future
          = (if ((plumberC4.actors.filter (fun e => e.2.is_expired 200 && !e.2.is_executing)).map
                  (fun e => e.2.cleanup_key)).isEmpty = true
             then none
             else some ((plumberC4.actors.filter
                  (fun e => e.2.is_expired 200 && !e.2.is_executing)).map
                  (fun e => e.2.cleanup_key))))
    ∧ plumberC4Inflight.cleanupStep 200 false = plumberC4Inflight :=
  ⟨(claim4_cleanup 200 true plumberC4).1 (by decide) (by decide),
   (claim4_cleanup 200 true plumberC4Inflight).2.2.2 [actorExpired.cleanup_key] (by decide)⟩

end Nox
